import Mathlib

/-!
Verification development for the Calendar-Notifier repository.

The Python source is shallowly embedded: pure data (pydantic models) becomes
Lean structures, the pipeline functions become Lean functions, external
collaborators (Google Calendar HTTP calls, Redis, the Affinity CRM and news
HTTP APIs) are passed in as explicit oracle parameters describing the outcome
of each outbound call.  Datetimes are modelled as integers (seconds);
HTTP errors are modelled by their message string, which is what the source's
`should_retry_http_error` inspects via `str(exc)`.
-/

namespace CalendarNotifier

/-- News article dictionary produced by `NewsService` formatting
(`title`/`description`/`url`/`published_at`/`source` keys, each possibly null). -/
structure Article where
  title : Option String
  descr : Option String
  url : Option String
  published_at : Option String
  source : Option String
deriving Repr, DecidableEq

/-- `app.schemas.brief.AttendeeInfo` (pydantic model).  Optional fields default
to `none` exactly as the pydantic defaults are `None`. -/
structure AttendeeInfo where
  email : String
  name : String
  company : Option String := none
  title : Option String := none
  linkedin_url : Option String := none
  recent_emails : Option (List String) := none
  last_note_summary : Option String := none
  last_note_date : Option String := none
  materials : Option (List String) := none
  company_domain : Option String := none
  website_url : Option String := none
  news_articles : Option (List Article) := none
  last_meeting_date : Option Int := none
  meetings_past_n_days : Option Nat := none
deriving Repr, DecidableEq

/-- `app.schemas.brief.MeetingEvent` (pydantic model); times are modelled as
integer seconds. -/
structure MeetingEvent where
  event_id : String
  title : String
  start_time : Int
  end_time : Int
  attendees : List AttendeeInfo
  description : Option String := none
  location : Option String := none
  meeting_url : Option String := none
  calendar_url : Option String := none
  duration_minutes : Option Int := none
deriving Repr, DecidableEq

/-- A raw attendee dictionary of a Google Calendar API event item:
`email` and `displayName` keys may be missing. -/
structure RawAttendee where
  email : Option String
  displayName : Option String
deriving Repr, DecidableEq

/-- A raw Google Calendar API event item, restricted to the keys
`get_daily_events` reads.  `recurrence` models the truthiness of the
`recurrence` key; start and end times are the already-parsed datetimes. -/
structure RawEvent where
  id : String
  summary : Option String := none
  start_time : Int
  end_time : Int
  attendees : List RawAttendee := []
  description : Option String := none
  location : Option String := none
  recurringEventId : Option String := none
  recurrence : Bool := false
  htmlLink : Option String := none
deriving Repr, DecidableEq

/-- The slice of `app.core.config.Settings` that the calendar retrieval
pipeline reads. -/
structure Settings where
  google_calendar_ids : Option String := none
  filter_require_non_owner_attendee : Bool := true
  filter_external_only : Bool := true
  filter_exclude_recurring : Bool := true
  internal_domains : Option String := none
deriving Repr, DecidableEq

/-- Is `needle` a prefix of `hay`?  (Helper for the substring test.) -/
def prefixes : List Char → List Char → Bool
  | [], _ => true
  | _ :: _, [] => false
  | a :: as, b :: bs => a = b && prefixes as bs

/-- Python `needle in hay` substring containment on character lists. -/
def containsSub (needle : List Char) : List Char → Bool
  | [] => prefixes needle []
  | c :: t => prefixes needle (c :: t) || containsSub needle t

/-- Python `needle in hay` substring test on strings. -/
def occursIn (needle hay : String) : Bool :=
  containsSub needle.data hay.data

/-- Python `str.lower()` (ASCII model, matching the repository's inputs). -/
def lowerStr (s : String) : String :=
  ⟨s.data.map Char.toLower⟩

/-- `app.core.utils.retry.should_retry_http_error`: lowercase the error text
and look for a transient-failure marker substring. -/
def should_retry_http_error (msg : String) : Bool :=
  let transient_markers := ["rate limit", "429", "backenderror", "backend error",
    "internal error", "temporarily unavailable", "reset reason", "connection reset"]
  transient_markers.any (fun m => occursIn m (lowerStr msg))

/-- Python `s.split(sep, 1)` restricted to a one-character separator: the part
before the first occurrence and the part after it, or `none` when the
separator does not occur. -/
def splitFirst (sep : Char) : List Char → Option (List Char × List Char)
  | [] => none
  | c :: t =>
    if c = sep then some ([], t)
    else (splitFirst sep t).map (fun p => (c :: p.1, p.2))

/-- Python `s.split(sep)` for a one-character separator. -/
def splitAll (sep : Char) : List Char → List (List Char)
  | [] => [[]]
  | c :: t =>
    match splitAll sep t with
    | [] => if c = sep then [[], []] else [[c]]
    | h :: r => if c = sep then [] :: h :: r else (c :: h) :: r

/-- Python `str.strip()` with no argument (whitespace trimming, ASCII model). -/
def stripChars (l : List Char) : List Char :=
  ((l.dropWhile Char.isWhitespace).reverse.dropWhile Char.isWhitespace).reverse

/-- `extract_domain` (local helper in `get_daily_events`):
`email_value.split('@', 1)[1].lower()`, returning `""` when there is no `'@'`
(the `IndexError` branch of the `try`). -/
def extract_domain (email_value : String) : String :=
  match splitFirst '@' email_value.data with
  | none => ""
  | some p => ⟨p.2.map Char.toLower⟩

/-- `owner_domain = extract_domain(owner_identifier) if '@' in owner_identifier else ''`. -/
def ownerDomainOf (owner_identifier : String) : String :=
  if occursIn "@" owner_identifier then extract_domain owner_identifier else ""

/-- The `internal_domains_set`: split the configured comma-separated string,
strip and lowercase each entry, drop empties. -/
def internalDomainsSet (s : Settings) : List String :=
  ((splitAll ',' (s.internal_domains.getD "").data).map
    (fun d => (⟨(stripChars d).map Char.toLower⟩ : String))).filter (fun d => d ≠ "")

/-- The `calendar_ids` computation at the top of `get_daily_events`: split the
configured comma-separated string (when truthy), strip entries, drop empties;
otherwise `['primary']`. -/
def calendarIdsOf (s : Settings) : List String :=
  match s.google_calendar_ids with
  | some ids =>
    if ids ≠ "" then
      ((splitAll ',' ids.data).map (fun c => (⟨stripChars c⟩ : String))).filter (fun c => c ≠ "")
    else ["primary"]
  | none => ["primary"]

/-- Python `email.split('@')[0]`: the part before the first `'@'`, or the whole
string when there is none. -/
def localPart (e : String) : String :=
  match splitFirst '@' e.data with
  | none => e
  | some p => ⟨p.1⟩

/-- The attendee-extraction loop: keep raw attendees with a truthy `email`,
defaulting the name to the part of the email before `'@'`. -/
def attendeeInfosOf (ev : RawEvent) : List AttendeeInfo :=
  ev.attendees.filterMap (fun a =>
    match a.email with
    | some e => if e ≠ "" then
        some { email := e, name := a.displayName.getD (localPart e) }
      else none
    | none => none)

/-- `non_owner_attendees = [a for a in attendee_infos if a.email.lower() != owner_identifier]`. -/
def nonOwnerOf (owner_identifier : String) (attendee_infos : List AttendeeInfo) :
    List AttendeeInfo :=
  attendee_infos.filter (fun a => lowerStr a.email ≠ owner_identifier)

/-- The first `external_attendees` assignment: keep attendees whose domain
differs from the owner's, but only when the owner has a domain and the
external-only toggle is on. -/
def externalStep (ext_only : Bool) (owner_domain : String)
    (non_owner_attendees : List AttendeeInfo) : List AttendeeInfo :=
  if owner_domain ≠ "" ∧ ext_only then
    non_owner_attendees.filter (fun a => extract_domain a.email ≠ owner_domain)
  else non_owner_attendees

/-- The internal-domains adjustment: when an internal-domain list is
configured, prefer attendees outside it, falling back to the unfiltered list
when that would leave nobody. -/
def internalStep (internal_domains_set : List String)
    (external_attendees : List AttendeeInfo) : List AttendeeInfo :=
  if internal_domains_set ≠ [] then
    let externals := external_attendees.filter
      (fun a => extract_domain a.email ∉ internal_domains_set)
    if externals.isEmpty then external_attendees else externals
  else external_attendees

/-- The per-event body of the loop in `get_daily_events`
(src/app/services/calendar/google_calendar.py lines 126-194): the recurring
filter, attendee extraction, the non-owner filter, the external-only /
internal-domains filter, and construction of the `MeetingEvent`.
`extractUrl` stands for `_extract_meeting_url` (a regex scan over the raw
event, passed in as a parameter; no claim depends on its value). -/
def processEvent (s : Settings) (calendar_id : String)
    (extractUrl : RawEvent → Option String) (event : RawEvent) :
    Option MeetingEvent :=
  if s.filter_exclude_recurring ∧ (event.recurringEventId.isSome ∨ event.recurrence) then
    none
  else
    let owner_identifier := lowerStr calendar_id
    let non_owner_attendees := nonOwnerOf owner_identifier (attendeeInfosOf event)
    if s.filter_require_non_owner_attendee ∧ non_owner_attendees.isEmpty then
      none
    else
      let external_attendees := internalStep (internalDomainsSet s)
        (externalStep s.filter_external_only (ownerDomainOf owner_identifier)
          non_owner_attendees)
      if s.filter_external_only ∧ external_attendees.isEmpty then
        none
      else
        some {
          event_id := event.id
          title := event.summary.getD "Untitled Meeting"
          start_time := event.start_time
          end_time := event.end_time
          attendees := external_attendees
          description := event.description
          location := event.location
          meeting_url := extractUrl event
          calendar_url := event.htmlLink
          duration_minutes := some ((event.end_time - event.start_time).fdiv 60)
        }

/-- The inner while-loop retry around `events().list(...).execute()`:
`call n` is the outcome of the `n`-th API call for this calendar
(the result items, or the `HttpError` message).  `fuel` is the number of
retries still allowed (`attempt >= 3` in the source means two retries after
the first call). -/
def gcalAttempts (call : Nat → Except String (List RawEvent)) :
    Nat → Nat → Except String (List RawEvent)
  | attempt, fuel =>
    match call attempt with
    | .ok items => .ok items
    | .error e =>
      match fuel with
      | 0 => .error e
      | fuel' + 1 =>
        if should_retry_http_error e then gcalAttempts call (attempt + 1) fuel'
        else .error e

/-- Per-calendar fetch: consult the cache (`get_json_sync`, exceptions already
folded into `none`); a truthy (non-empty) cached item list short-circuits,
otherwise the API is called with the retry loop. -/
def fetchCalendar (cache : String → Option (List RawEvent))
    (call : String → Nat → Except String (List RawEvent))
    (calendar_id : String) : Except String (List RawEvent) :=
  match cache calendar_id with
  | some items => if items.isEmpty then gcalAttempts (call calendar_id) 0 2 else .ok items
  | none => gcalAttempts (call calendar_id) 0 2

/-- The per-calendar loop body of `get_daily_events`: fetch each calendar in
order, process its items, and concatenate; the first uncaught `HttpError`
aborts the whole loop (it propagates to the surrounding `except`). -/
def goCalendars (cache : String → Option (List RawEvent))
    (call : String → Nat → Except String (List RawEvent))
    (s : Settings) (extractUrl : RawEvent → Option String) :
    List String → Except String (List MeetingEvent)
  | [] => .ok []
  | c :: rest => do
    let items ← fetchCalendar cache call c
    let ms := items.filterMap (processEvent s c extractUrl)
    let more ← goCalendars cache call s extractUrl rest
    pure (ms ++ more)

/-- `GoogleCalendarService.get_daily_events`
(src/app/services/calendar/google_calendar.py lines 54-200), with the
date-window computation abstracted away (the cache and call oracles are
already specialised to the queried window): iterate the configured calendars;
the outer `except HttpError` turns any propagated error into `[]`. -/
def get_daily_events (cache : String → Option (List RawEvent))
    (call : String → Nat → Except String (List RawEvent))
    (s : Settings) (extractUrl : RawEvent → Option String) : List MeetingEvent :=
  match goCalendars cache call s extractUrl (calendarIdsOf s) with
  | .ok l => l
  | .error _ => []

/-! ## The retry combinator (`app.core.utils.retry.async_retry`) -/

/-- Result of running a retry-wrapped call: the value returned or the error
re-raised, the number of calls made, and the list of sleep durations
(each `delay + random.uniform(0, delay / 2)`, the jitter supplied as an
oracle). -/
structure RetryOutcome (α : Type) where
  result : Except String α
  calls : Nat
  sleeps : List ℚ

/-- The `while True` loop body of `async_retry`'s `wrapper`
(src/app/core/utils/retry.py lines 23-34).  `out n` is the outcome of the
`n`-th call of the wrapped function, `jit n` the jitter drawn before the
`n`-th retry sleep; `fuel` is `tries - attempt`, so `attempt + 1 >= tries`
is `fuel ≤ 1`.  Errors are modelled by their text (what `should_retry`
inspects); the `exceptions` tuple at every use site in the repository is
`(httpx.HTTPError, Exception)`, which catches every exception, so every
error is caught here. -/
def retryGo (out : Nat → Except String α) (sr : Option (String → Bool))
    (jit : Nat → ℚ) (max_delay : ℚ) :
    Nat → Nat → ℚ → RetryOutcome α
  | 0, attempt, _ =>
    match out attempt with
    | .ok a => ⟨.ok a, attempt + 1, []⟩
    | .error e => ⟨.error e, attempt + 1, []⟩
  | 1, attempt, _ =>
    match out attempt with
    | .ok a => ⟨.ok a, attempt + 1, []⟩
    | .error e => ⟨.error e, attempt + 1, []⟩
  | fuel' + 2, attempt, delay =>
    match out attempt with
    | .ok a => ⟨.ok a, attempt + 1, []⟩
    | .error e =>
      if (sr.map (fun f => f e)).getD true then
        let slept := delay + jit attempt
        let r := retryGo out sr jit max_delay (fuel' + 1) (attempt + 1)
          (min (delay * 2) max_delay)
        ⟨r.result, r.calls, slept :: r.sleeps⟩
      else ⟨.error e, attempt + 1, []⟩

/-- `async_retry(exceptions, tries, base_delay, max_delay, should_retry)`
applied to a function whose successive call outcomes are `out`. -/
def async_retry (out : Nat → Except String α) (sr : Option (String → Bool))
    (jit : Nat → ℚ) (tries : Nat) (base_delay max_delay : ℚ) : RetryOutcome α :=
  retryGo out sr jit max_delay tries 0 base_delay

/-! ## News enrichment (`app.services.news.news_service.NewsService`) -/

/-- `NewsService.enrich_attendee_with_news`
(src/app/services/news/news_service.py lines 171-209).  The two network
searches are oracles (`personNews`, `companyNews` are the already-formatted
article lists the service's `get_news_for_person` / `get_news_for_company`
produce, each returning `[]` on its own HTTP failures).  Returns the updated
attendee and the number of news searches performed. -/
def enrich_attendee_with_news (hasKey : Bool)
    (personNews companyNews : AttendeeInfo → List Article)
    (maxArticles : Nat) (a : AttendeeInfo) : AttendeeInfo × Nat :=
  if !hasKey then
    ({ a with news_articles := some [] }, 0)
  else
    let person_news := personNews a
    let company_news := if a.company.isSome then companyNews a else []
    let company_calls := if a.company.isSome then 1 else 0
    let all_news := person_news ++ company_news
    let unique_news := all_news.foldl
      (fun acc art => if acc.any (fun b => b.url = art.url) then acc else acc ++ [art]) []
    ({ a with news_articles := some (unique_news.take maxArticles) }, 1 + company_calls)

/-! ## Brief enrichment (`app.services.brief_service.BriefService`) -/

/-- The per-attendee body of `_enrich_events`
(src/app/services/brief_service.py lines 74-84): Affinity enrichment
(an oracle: the CRM chain never raises out of `enrich_attendee_info`),
then news enrichment only when `news_service.api_key` is truthy. -/
def enrichAttendee (affinity : AttendeeInfo → AttendeeInfo) (hasKey : Bool)
    (personNews companyNews : AttendeeInfo → List Article) (maxArticles : Nat)
    (a : AttendeeInfo) : AttendeeInfo × Nat :=
  let enriched := affinity a
  if hasKey then
    enrich_attendee_with_news hasKey personNews companyNews maxArticles enriched
  else (enriched, 0)

/-- The per-event body of `_enrich_events`
(src/app/services/brief_service.py lines 71-97): enrich each attendee and
rebuild the `MeetingEvent` from scratch, supplying only `event_id`, `title`,
`start_time`, `end_time`, `attendees`, `description` and `location`
(all other fields take their pydantic defaults). -/
def enrichEvent (affinity : AttendeeInfo → AttendeeInfo) (hasKey : Bool)
    (personNews companyNews : AttendeeInfo → List Article) (maxArticles : Nat)
    (event : MeetingEvent) : MeetingEvent × Nat :=
  let step := event.attendees.foldl
    (fun (acc : List AttendeeInfo × Nat) a =>
      let r := enrichAttendee affinity hasKey personNews companyNews maxArticles a
      (acc.1 ++ [r.1], acc.2 + r.2)) ([], 0)
  ({ event_id := event.event_id
     title := event.title
     start_time := event.start_time
     end_time := event.end_time
     attendees := step.1
     description := event.description
     location := event.location }, step.2)

/-- `BriefService._enrich_events`: enrich every event, counting the total
number of news network calls made along the way. -/
def enrich_events (affinity : AttendeeInfo → AttendeeInfo) (hasKey : Bool)
    (personNews companyNews : AttendeeInfo → List Article) (maxArticles : Nat)
    (events : List MeetingEvent) : List MeetingEvent × Nat :=
  events.foldl
    (fun (acc : List MeetingEvent × Nat) ev =>
      let r := enrichEvent affinity hasKey personNews companyNews maxArticles ev
      (acc.1 ++ [r.1], acc.2 + r.2)) ([], 0)

/-! ## History annotation (`BriefService._enrich_with_history`) -/

/-- The lowercased emails one event contributes to `unique_emails`
(`if att and att.email: unique_emails.add(att.email.lower())`). -/
def attendeeKeys (ev : MeetingEvent) : List String :=
  ev.attendees.filterMap (fun a => if a.email ≠ "" then some (lowerStr a.email) else none)

/-- `unique_emails` as a list (used only through membership and emptiness,
matching the Python set). -/
def uniqueEmails (events : List MeetingEvent) : List String :=
  events.flatMap attendeeKeys

/-- `email_to_count[email] += 1` on an association-list model of the
`defaultdict(int)`. -/
def bumpCount : List (String × Nat) → String → List (String × Nat)
  | [], k => [(k, 1)]
  | (a, n) :: t, k => if a = k then (a, n + 1) :: t else (a, n) :: bumpCount t k

/-- The `email_to_last` update: keep the maximum start time, strictly-greater
wins (`if (last is None) or (st > last)`). -/
def bumpLast : List (String × Int) → String → Int → List (String × Int)
  | [], k, v => [(k, v)]
  | (a, d) :: t, k, v =>
    if a = k then (a, if v > d then v else d) :: t else (a, d) :: bumpLast t k v

/-- The body of the inner loop over one past event's attendees
(src/app/services/brief_service.py lines 130-140): skip empty or untracked
emails, bump the count, and track the latest start time `st`. -/
def statsFold (unique : List String) (st : Int)
    (acc : List (String × Nat) × List (String × Int)) (l : List AttendeeInfo) :
    List (String × Nat) × List (String × Int) :=
  l.foldl
    (fun acc patt =>
      let email := lowerStr patt.email
      if email = "" ∨ email ∉ unique then acc
      else (bumpCount acc.1 email, bumpLast acc.2 email st))
    acc

/-- The inner loop applied to one past event. -/
def statsOfEvent (unique : List String) (acc : List (String × Nat) × List (String × Int))
    (pev : MeetingEvent) : List (String × Nat) × List (String × Int) :=
  statsFold unique pev.start_time acc pev.attendees

/-- `email_to_count` / `email_to_last` built over all past events. -/
def historyStats (unique : List String) (past : List MeetingEvent) :
    List (String × Nat) × List (String × Int) :=
  past.foldl (statsOfEvent unique) ([], [])

/-- The apply step (src/app/services/brief_service.py lines 143-151): write
the computed stats onto an attendee, leaving each field untouched when its
key is absent from the corresponding dict. -/
def applyHistory (counts : List (String × Nat)) (lasts : List (String × Int))
    (att : AttendeeInfo) : AttendeeInfo :=
  let key := lowerStr att.email
  if key = "" then att
  else
    { att with
      last_meeting_date :=
        match lasts.lookup key with
        | some d => some d
        | none => att.last_meeting_date
      meetings_past_n_days :=
        match counts.lookup key with
        | some n => some n
        | none => att.meetings_past_n_days }

/-- `BriefService._enrich_with_history`
(src/app/services/brief_service.py lines 101-151), with the one-shot
range query's result `past` passed in (the in-place mutation becomes a pure
rewrite of every attendee).  The early returns on no events / no attendee
emails leave everything untouched. -/
def enrich_with_history (past : List MeetingEvent) (events : List MeetingEvent) :
    List MeetingEvent :=
  if events.isEmpty then events
  else
    let unique := uniqueEmails events
    if unique.isEmpty then events
    else
      let stats := historyStats unique past
      events.map (fun ev =>
        { ev with attendees := ev.attendees.map (applyHistory stats.1 stats.2) })

/-! ## Fallback formatter (`SummarizationService._generate_fallback_brief`) -/

/-- The HTML-entity unescape step (`html.unescape`), modelled for the five
standard named/numeric entities; other text passes through unchanged. -/
def unescapeHtml : List Char → List Char
  | [] => []
  | '&' :: 'a' :: 'm' :: 'p' :: ';' :: t => '&' :: unescapeHtml t
  | '&' :: 'l' :: 't' :: ';' :: t => '<' :: unescapeHtml t
  | '&' :: 'g' :: 't' :: ';' :: t => '>' :: unescapeHtml t
  | '&' :: 'q' :: 'u' :: 'o' :: 't' :: ';' :: t => '"' :: unescapeHtml t
  | '&' :: '#' :: '3' :: '9' :: ';' :: t => '\'' :: unescapeHtml t
  | c :: t => c :: unescapeHtml t

/-- `re.sub(r"<[^>]+>", " ", s)`: replace every `<`…`>` run (with at least one
non-`>` character inside) by a single space; a `<` never closed, or an empty
`<>`, stays as-is.  `pending` holds the characters of a candidate tag seen so
far (in reverse). -/
def stripTagsAux : Bool → List Char → List Char → List Char
  | false, _, [] => []
  | false, _, '<' :: t => stripTagsAux true ['<'] t
  | false, _, c :: t => c :: stripTagsAux false [] t
  | true, pending, [] => pending.reverse
  | true, pending, '>' :: t =>
    if pending.length ≥ 2 then ' ' :: stripTagsAux false [] t
    else pending.reverse ++ '>' :: stripTagsAux false [] t
  | true, pending, c :: t => stripTagsAux true (c :: pending) t

/-- Whitespace collapse: `" ".join(s.split())`. -/
def collapseWs (l : List Char) : List Char :=
  let toks := (splitAll ' ' ((l.map (fun c => if c.isWhitespace then ' ' else c)))).filter
    (fun t => t ≠ [])
  (toks.map (fun t => (⟨t⟩ : String))).foldr
    (fun t acc => if acc = "" then t else t ++ " " ++ acc) "" |>.data

/-- `strip_html` (src/app/services/ai/summarization_service.py lines 134-141):
unescape entities, strip tags, collapse whitespace; falsy input gives `""`. -/
def strip_html (text : String) : String :=
  if text = "" then ""
  else ⟨collapseWs (stripTagsAux false [] (unescapeHtml text.data))⟩

/-- The materials-gathering loop at the top of `format_about`: every
attendee's `materials` URLs, first-seen order, deduplicated. -/
def gatherMaterials (attendees : List AttendeeInfo) : List String :=
  attendees.foldl
    (fun acc a => (a.materials.getD []).foldl
      (fun acc u => if u ∈ acc then acc else acc ++ [u]) acc) []

/-- The candidate texts scanned when the stripped description is empty:
for each attendee in order, a truthy `last_note_summary` and then the head of
a truthy `recent_emails` list. -/
def noteCandidates (attendees : List AttendeeInfo) : List String :=
  attendees.flatMap (fun a =>
    (match a.last_note_summary with
     | some s => if s ≠ "" then [s] else []
     | none => []) ++
    (match a.recent_emails with
     | some (e :: _) => [e]
     | _ => []))

/-- The first candidate whose `strip_html` is non-empty (the loop's
`if base: break`), else `""`. -/
def firstNoteText (attendees : List AttendeeInfo) : String :=
  (((noteCandidates attendees).map strip_html).find? (fun b => b ≠ "")).getD ""

/-- The website fallback: `Company site: {url}` for the first attendee with a
truthy `website_url`. -/
def websiteText (attendees : List AttendeeInfo) : String :=
  match attendees.find? (fun a => (a.website_url.getD "") ≠ "") with
  | some a => "Company site: " ++ a.website_url.getD ""
  | none => ""

/-- The final truncation: `(clean[:120] + ellipsis) if len(clean) > 120 else clean`. -/
def truncate120 (clean : String) : String :=
  if clean.data.length > 120 then (⟨clean.data.take 120⟩ : String) ++ "…" else clean

/-- `format_about` (src/app/services/ai/summarization_service.py lines
143-177): materials first; otherwise the stripped event description; when
that is empty, the first attendee note/recent-context text; when still empty,
the first company website; truncate the chosen text to 120 characters with an
ellipsis.  The mojibake literals of the source (`â€”`, `â€¢`, `â€¦`, i.e.
UTF-8 em dash, bullet and ellipsis read back as Latin-1) are modelled by the
intended characters. -/
def format_about (descr : Option String) (attendees : List AttendeeInfo) : String :=
  let materials := gatherMaterials attendees
  if materials ≠ [] then
    " — About: Materials: " ++ String.intercalate " • " (materials.take 2)
  else
    let base := strip_html (descr.getD "")
    let base := if base = "" then firstNoteText attendees else base
    let base := if base = "" then websiteText attendees else base
    if base = "" then "" else " — About: " ++ truncate120 base

/-! ## Cache (`app.core.utils.cache.RedisCache`) -/

/-- JSON-representable values (what `json.dumps` accepts and `json.loads`
returns); numbers are modelled as integers. -/
inductive Json where
  | null : Json
  | bool : Bool → Json
  | num : Int → Json
  | str : String → Json
  | arr : List Json → Json
  | obj : List (String × Json) → Json

/-- The Redis store: key, stored value, absolute expiry time.  The standard
JSON codec the source funnels values through (`json.dumps` on write,
`json.loads` on read) is a bijection on JSON-representable values and is
modelled as the identity on `Json`. -/
structure CacheState where
  entries : List (String × Json × Int)

/-- `RedisCache.set_json(key, value, ttl_seconds)`: `SET key payload EX ttl`
overwrites the key with expiry `now + ttl` (every `Json` value serializes, so
the `TypeError` fallback branch is unreachable in the model). -/
def set_json (st : CacheState) (key : String) (value : Json) (ttl_seconds : Int)
    (now : Int) : CacheState :=
  ⟨(key, value, now + ttl_seconds) :: st.entries.filter (fun e => e.1 ≠ key)⟩

/-- `RedisCache.get_json(key)`: `GET` returns the value while not expired,
else nil; a nil read returns `None`; parse failures are caught and also give
`None` (the function is total and never raises). -/
def get_json (st : CacheState) (key : String) (now : Int) : Option Json :=
  match st.entries.find? (fun e => e.1 = key) with
  | some e => if now < e.2.2 then some e.2.1 else none
  | none => none

/-! ## Spec-side definition for the external-only filter (claim C3) -/

/-- The output attendee list as the spec's words describe it: the non-owner
attendees whose domain differs from the owner's; when an internal-domain
list is configured, further restricted to domains outside it, unless that
restriction would leave zero attendees, in which case the unrestricted
external set is kept. -/
def claimedExternalList (owner_domain : String) (internal : List String)
    (non_owner : List AttendeeInfo) : List AttendeeInfo :=
  let ext := non_owner.filter (fun a => extract_domain a.email ≠ owner_domain)
  if internal ≠ [] then
    let restricted := ext.filter (fun a => extract_domain a.email ∉ internal)
    if restricted = [] then ext else restricted
  else ext

/-! ## Concrete sample inputs used by the witness and counterexample theorems -/

/-- C1 sample: two configured calendars, all event filters off. -/
def c1Settings : Settings :=
  { google_calendar_ids := some "a@x.com,b@y.com",
    filter_require_non_owner_attendee := false, filter_external_only := false,
    filter_exclude_recurring := false }

/-- C1 sample: an ordinary event on the first calendar. -/
def c1Event : RawEvent :=
  { id := "e1", summary := some "Sync", start_time := 0, end_time := 3600,
    attendees := [{ email := some "carol@other.com", displayName := some "Carol" }] }

/-- C1 sample: the first calendar succeeds, the second raises a non-transient
`HttpError` on every attempt. -/
def c1Call : String → Nat → Except String (List RawEvent) :=
  fun c _ => if c = "a@x.com" then .ok [c1Event] else .error "HttpError 404 not found"

/-- C2 sample: one event with one bare attendee. -/
def c2Event : MeetingEvent :=
  { event_id := "1", title := "t", start_time := 0, end_time := 3600,
    attendees := [{ email := "x@y.com", name := "X" }] }

/-- C3/C9 sample settings: the defaults (all filters on, no internal list). -/
def c3Settings : Settings := {}

/-- C3/C9 sample: the spec's example event — attendees
`[bob@acme.com, carol@other.com]` on the calendar of `alice@acme.com`. -/
def c3Event : RawEvent :=
  { id := "e1", summary := some "Sync", start_time := 0, end_time := 3600,
    attendees := [{ email := some "bob@acme.com", displayName := some "Bob" },
                  { email := some "carol@other.com", displayName := some "Carol" }] }

/-- C4 sample: all filters off, one configured calendar. -/
def c4Settings : Settings :=
  { google_calendar_ids := some "cal",
    filter_require_non_owner_attendee := false, filter_external_only := false,
    filter_exclude_recurring := false }

/-- C4 sample: an event with zero attendees. -/
def c4Event : RawEvent := { id := "e0", start_time := 0, end_time := 60, attendees := [] }

/-- Default-filter settings with `alice@acme.com` as the one configured
calendar (used to instantiate the calendar-pipeline theorems). -/
def acmeSettings : Settings := { google_calendar_ids := some "alice@acme.com" }

/-- The attendee `carol@other.com` as `get_daily_events` materialises it. -/
def carolInfo : AttendeeInfo := { email := "carol@other.com", name := "Carol" }

/-- What `processEvent` produces for `c3Event` on `alice@acme.com`'s calendar
under the default filters: only Carol survives the external-only filter. -/
def processedAcmeEvent : MeetingEvent :=
  { event_id := "e1", title := "Sync", start_time := 0, end_time := 3600,
    attendees := [carolInfo], duration_minutes := some 60 }

/-- C5 sample: an attendee holding a CRM note, no materials. -/
def c5Attendee : AttendeeInfo :=
  { email := "x@y.com", name := "X", last_note_summary := some "Call recap" }

/-- C5 witness sample: a note text longer than 120 characters. -/
def c5LongNote : String := ⟨List.replicate 130 'a'⟩

/-- C5 witness sample: an attendee whose CRM note is the long note. -/
def c5NoteAttendee : AttendeeInfo :=
  { email := "x@y.com", name := "X", last_note_summary := some c5LongNote }

/-- C6 witness sample: every call fails with a non-transient error. -/
def c6Out : Nat → Except String Nat := fun _ => .error "HttpError 404 not found"

/-- C6 witness sample: a zero jitter draw. -/
def c6Jit : Nat → ℚ := fun _ => 0

/-- C7 sample: today's events — the same person (case-varied email) in two
meetings. -/
def c7Events : List MeetingEvent :=
  [{ event_id := "1", title := "t", start_time := 100, end_time := 200,
     attendees := [{ email := "P@ext.com", name := "P" }] },
   { event_id := "2", title := "t2", start_time := 300, end_time := 400,
     attendees := [{ email := "p@EXT.com", name := "P2" }] }]

/-- C7 sample: a past meeting with that person. -/
def c7PastA : MeetingEvent :=
  { event_id := "p1", title := "old", start_time := 10, end_time := 20,
    attendees := [{ email := "p@ext.com", name := "P" }] }

/-- C7 sample: a second, later past meeting with that person. -/
def c7PastB : MeetingEvent :=
  { event_id := "p2", title := "old2", start_time := 50, end_time := 60,
    attendees := [{ email := "P@Ext.com", name := "P" }] }

/-- C7 sample: the lookback history. -/
def c7Past : List MeetingEvent := [c7PastA, c7PastB]

/-- C7 sample: the first annotated output event (2 past meetings, latest at
time 50). -/
def c7OutFirst : MeetingEvent :=
  { event_id := "1", title := "t", start_time := 100, end_time := 200,
    attendees := [{ email := "P@ext.com", name := "P",
                    last_meeting_date := some 50, meetings_past_n_days := some 2 }] }

/-- C7 sample: the second annotated output event. -/
def c7OutSecond : MeetingEvent :=
  { event_id := "2", title := "t2", start_time := 300, end_time := 400,
    attendees := [{ email := "p@EXT.com", name := "P2",
                    last_meeting_date := some 50, meetings_past_n_days := some 2 }] }

/-- C7 sample: the first annotated attendee object. -/
def c7AttFirst : AttendeeInfo :=
  { email := "P@ext.com", name := "P",
    last_meeting_date := some 50, meetings_past_n_days := some 2 }

/-- C7 sample: the second annotated attendee object (same person, other
meeting). -/
def c7AttSecond : AttendeeInfo :=
  { email := "p@EXT.com", name := "P2",
    last_meeting_date := some 50, meetings_past_n_days := some 2 }

/-! # Theorems -/

/-! ## Helper lemmas -/

/-- Unrolling the accumulate-and-count `foldl` shape shared by
`enrichEvent` and `enrich_events`. -/
theorem foldl_accum_count {α β : Type _} (h : α → β × Nat) (l : List α)
    (acc : List β × Nat) :
    l.foldl (fun acc a => let r := h a; (acc.1 ++ [r.1], acc.2 + r.2)) acc =
      (acc.1 ++ l.map (fun a => (h a).1), acc.2 + (l.map (fun a => (h a).2)).sum) := by
  induction l generalizing acc with
  | nil => simp
  | cons x xs ih =>
    rw [List.foldl_cons, ih]
    simp [List.append_assoc]
    omega

theorem sum_map_zero {α : Type _} (l : List α) : (l.map (fun _ => 0)).sum = 0 := by
  induction l with
  | nil => rfl
  | cons x xs ih => simp [ih]

/-! ## C1 — multi-calendar failure isolation (code bug) -/

/-- C1: with two configured calendars where the first yields an ordinary
event and the second fails with a non-transient `HttpError`, the whole
`get_daily_events` call returns `[]` — the events already collected from the
first calendar are discarded, contradicting the requirement that a failure
on one calendar identity yield an empty result for that identity only. -/
theorem get_daily_events_partial_failure_discards_all :
    get_daily_events (fun _ => none) c1Call c1Settings (fun _ => none) = [] ∧
      (processEvent c1Settings "a@x.com" (fun _ => none) c1Event).isSome = true := by
  decide

/-! ## C2 — news enrichment with no API key (corrected) -/

/-- C2 counterexample: with no news API key, the enriched attendee's
`news_articles` field is `none` (the pydantic `None` default), not the empty
list the claim states, because `_enrich_events` skips the news stage
entirely; no news network call is made. -/
theorem news_articles_none_without_key :
    (enrich_events id false (fun _ => []) (fun _ => []) 3 [c2Event]).2 = 0 ∧
      ((enrich_events id false (fun _ => []) (fun _ => []) 3 [c2Event]).1.map
        (fun e => e.attendees.map (fun a => a.news_articles))) = [[none]] := by
  decide

theorem enrichEvent_of_no_key (affinity : AttendeeInfo → AttendeeInfo)
    (pn cn : AttendeeInfo → List Article) (maxN : Nat) (ev : MeetingEvent) :
    enrichEvent affinity false pn cn maxN ev =
      ({ event_id := ev.event_id, title := ev.title, start_time := ev.start_time,
         end_time := ev.end_time, attendees := ev.attendees.map affinity,
         description := ev.description, location := ev.location }, 0) := by
  rw [enrichEvent, foldl_accum_count]
  simp [enrichAttendee, sum_map_zero]

/-- C2 amended: when no news API key is configured, brief generation makes
zero news network calls and every output attendee is exactly the CRM-enriched
attendee — `news_articles` is left as CRM enrichment produced it (its `None`
default), not set to `[]`; the news service's own
`enrich_attendee_with_news`, which would set `[]`, is never invoked by
`_enrich_events` in that configuration. -/
theorem enrich_events_no_key_skips_news (affinity : AttendeeInfo → AttendeeInfo)
    (pn cn : AttendeeInfo → List Article) (maxN : Nat) (events : List MeetingEvent) :
    enrich_events affinity false pn cn maxN events =
      (events.map (fun ev =>
        { event_id := ev.event_id, title := ev.title, start_time := ev.start_time,
          end_time := ev.end_time, attendees := ev.attendees.map affinity,
          description := ev.description, location := ev.location }), 0) ∧
      ∀ (pn' cn' : AttendeeInfo → List Article) (m : Nat) (a : AttendeeInfo),
        enrich_attendee_with_news false pn' cn' m a = ({ a with news_articles := some [] }, 0) := by
  constructor
  · rw [enrich_events, foldl_accum_count]
    simp [enrichEvent_of_no_key, sum_map_zero]
  · intro pn' cn' m a
    rfl

/-! ## C6 — the retry combinator -/

theorem retryGo_calls_le {α : Type _} (out : Nat → Except String α)
    (sr : Option (String → Bool)) (jit : Nat → ℚ) (maxD : ℚ) :
    ∀ (fuel attempt : Nat) (delay : ℚ),
      (retryGo out sr jit maxD fuel attempt delay).calls ≤ attempt + max fuel 1 := by
  intro fuel
  induction fuel with
  | zero =>
    intro attempt delay
    rw [retryGo]
    cases out attempt <;> simp
  | succ f ih =>
    intro attempt delay
    match f with
    | 0 =>
      rw [retryGo]
      cases out attempt <;> simp
    | f' + 1 =>
      rw [retryGo]
      cases out attempt with
      | ok a => simp
      | error e =>
        simp only
        split
        · have := ih (attempt + 1) (min (delay * 2) maxD)
          simp only [RetryOutcome.calls] at this ⊢
          omega
        · simp

/-- C6: the retry combinator, wrapped as every call site in the repository
wraps it (`should_retry=should_retry_http_error`):
(1) a first-call error whose text carries no transient signature is re-raised
immediately after one call, with no sleep;
(2) for any call-outcome sequence, at most `max tries 1` calls are made, so
`tries=3` (the repository's standard budget) never exceeds 3 attempts;
(3) when every call fails with a transient-signature error, the run makes
exactly 3 attempts, sleeping first `base + jitter₀` and then
`min (base * 2) max_delay + jitter₁` — exponentially doubled, capped,
jittered delays — and finally re-raises the third error. -/
theorem async_retry_transient_policy {α : Type _} :
    (∀ (out : Nat → Except String α) (jit : Nat → ℚ) (base maxD : ℚ) (e : String),
      out 0 = .error e → should_retry_http_error e = false →
      async_retry out (some should_retry_http_error) jit 3 base maxD =
        ⟨.error e, 1, []⟩) ∧
    (∀ (out : Nat → Except String α) (jit : Nat → ℚ) (base maxD : ℚ) (tries : Nat),
      (async_retry out (some should_retry_http_error) jit tries base maxD).calls ≤
        max tries 1) ∧
    (∀ (out : Nat → Except String α) (jit : Nat → ℚ) (base maxD : ℚ) (e0 e1 e2 : String),
      out 0 = .error e0 → out 1 = .error e1 → out 2 = .error e2 →
      should_retry_http_error e0 = true → should_retry_http_error e1 = true →
      async_retry out (some should_retry_http_error) jit 3 base maxD =
        ⟨.error e2, 3, [base + jit 0, min (base * 2) maxD + jit 1]⟩) := by
  refine ⟨?_, ?_, ?_⟩
  · intro out jit base maxD e h0 hsr
    rw [async_retry, retryGo, h0]
    simp [hsr]
  · intro out jit base maxD tries
    have := retryGo_calls_le out (some should_retry_http_error) jit maxD tries 0 base
    simpa [async_retry] using this
  · intro out jit base maxD e0 e1 e2 h0 h1 h2 hr0 hr1
    rw [async_retry, retryGo, h0, retryGo, h1, retryGo, h2]
    simp [hr0, hr1]

/-- C6 witness: a concrete non-transient error is re-raised after exactly one
call with no sleeps. -/
theorem async_retry_transient_policy_witness :
    async_retry c6Out (some should_retry_http_error) c6Jit 3 (1/2 : ℚ) 5 =
      ⟨.error "HttpError 404 not found", 1, []⟩ :=
  (async_retry_transient_policy (α := Nat)).1 c6Out c6Jit (1/2 : ℚ) 5
    "HttpError 404 not found" rfl (by decide)

/-! ## C8 — cache round trip -/

/-- C8: `set_json(key, v, ttl)` (with a positive ttl) followed immediately by
`get_json(key)` returns exactly the value written, and `get_json` on a key
with no entry returns `none`; both functions are total (never raise). -/
theorem cache_roundtrip (st : CacheState) (key : String) (v : Json)
    (ttl now : Int) (h : 0 < ttl) :
    get_json (set_json st key v ttl now) key now = some v ∧
      ∀ (st' : CacheState) (k' : String) (now' : Int),
        (∀ e ∈ st'.entries, e.1 ≠ k') → get_json st' k' now' = none := by
  constructor
  · simp only [get_json, set_json, List.find?]
    simp
    omega
  · intro st' k' now' habs
    simp only [get_json]
    rw [List.find?_eq_none.mpr]
    intro e he
    simpa using habs e he

/-- C8 witness: a concrete set-then-get round trip. -/
theorem cache_roundtrip_witness :
    get_json (set_json ⟨[]⟩ "k" (Json.str "v") 600 0) "k" 0 = some (Json.str "v") :=
  (cache_roundtrip ⟨[]⟩ "k" (Json.str "v") 600 0 (by decide)).1

/-! ## C10 — `_enrich_events` resets the quick-access fields -/

/-- C10: `_enrich_events` maps each event through `enrichEvent`, and the
rebuilt event always has `meeting_url`, `calendar_url` and `duration_minutes`
equal to `none` (the reconstruction omits them) while `event_id`, `title`,
`start_time`, `end_time`, `description` and `location` are preserved
unchanged. -/
theorem enrich_events_frame (affinity : AttendeeInfo → AttendeeInfo) (hasKey : Bool)
    (pn cn : AttendeeInfo → List Article) (maxN : Nat) (events : List MeetingEvent) :
    (enrich_events affinity hasKey pn cn maxN events).1 =
      events.map (fun ev => (enrichEvent affinity hasKey pn cn maxN ev).1) ∧
    ∀ event : MeetingEvent,
      (enrichEvent affinity hasKey pn cn maxN event).1.meeting_url = none ∧
      (enrichEvent affinity hasKey pn cn maxN event).1.calendar_url = none ∧
      (enrichEvent affinity hasKey pn cn maxN event).1.duration_minutes = none ∧
      (enrichEvent affinity hasKey pn cn maxN event).1.event_id = event.event_id ∧
      (enrichEvent affinity hasKey pn cn maxN event).1.title = event.title ∧
      (enrichEvent affinity hasKey pn cn maxN event).1.start_time = event.start_time ∧
      (enrichEvent affinity hasKey pn cn maxN event).1.end_time = event.end_time ∧
      (enrichEvent affinity hasKey pn cn maxN event).1.description = event.description ∧
      (enrichEvent affinity hasKey pn cn maxN event).1.location = event.location := by
  constructor
  · rw [enrich_events, foldl_accum_count]
    simp
  · intro event
    exact ⟨rfl, rfl, rfl, rfl, rfl, rfl, rfl, rfl, rfl⟩

/-! ## Calendar pipeline lemmas (C3, C4, C9) -/

theorem mem_nonOwnerOf {owner : String} {infos : List AttendeeInfo} {a : AttendeeInfo}
    (h : a ∈ nonOwnerOf owner infos) : lowerStr a.email ≠ owner := by
  have := List.of_mem_filter h
  simpa using this

theorem internalStep_subset {internal : List String} {l : List AttendeeInfo}
    {a : AttendeeInfo} (h : a ∈ internalStep internal l) : a ∈ l := by
  simp only [internalStep] at h
  split_ifs at h with h1 h2
  · exact h
  · exact List.mem_of_mem_filter h
  · exact h

theorem externalStep_subset {ext_only : Bool} {dom : String} {l : List AttendeeInfo}
    {a : AttendeeInfo} (h : a ∈ externalStep ext_only dom l) : a ∈ l := by
  simp only [externalStep] at h
  split_ifs at h with h1
  · exact List.mem_of_mem_filter h
  · exact h

theorem internalStep_ne_nil {internal : List String} {l : List AttendeeInfo}
    (h : l ≠ []) : internalStep internal l ≠ [] := by
  simp only [internalStep]
  split_ifs with h1 h2
  · exact h
  · simpa [List.isEmpty_iff] using h2
  · exact h

theorem externalStep_of_not_ext (dom : String) (l : List AttendeeInfo) :
    externalStep false dom l = l := by
  simp [externalStep]

/-- Characterization of a successful `processEvent`: the output attendee list
is the internal-domains adjustment of the external step over the non-owner
subset, and the two gate conditions passed. -/
theorem processEvent_some_cases {s : Settings} {cal : String}
    {u : RawEvent → Option String} {ev : RawEvent} {m : MeetingEvent}
    (h : processEvent s cal u ev = some m) :
    m.attendees = internalStep (internalDomainsSet s)
      (externalStep s.filter_external_only (ownerDomainOf (lowerStr cal))
        (nonOwnerOf (lowerStr cal) (attendeeInfosOf ev))) ∧
    (s.filter_require_non_owner_attendee = true →
      nonOwnerOf (lowerStr cal) (attendeeInfosOf ev) ≠ []) ∧
    (s.filter_external_only = true → m.attendees ≠ []) := by
  simp only [processEvent] at h
  split_ifs at h with h1 h2 h3
  have hminj := Option.some.inj h
  refine ⟨by rw [← hminj], ?_, ?_⟩
  · intro hreq hno
    exact h2 ⟨hreq, by simp [hno]⟩
  · intro hx hnil
    refine h3 ⟨hx, ?_⟩
    rw [← hminj] at hnil
    simpa [List.isEmpty_iff] using hnil

/-- Every event in the `get_daily_events` output is the processed image of a
raw event fetched from one of the configured calendars. -/
theorem mem_goCalendars_ok {cache : String → Option (List RawEvent)}
    {call : String → Nat → Except String (List RawEvent)} {s : Settings}
    {u : RawEvent → Option String} :
    ∀ (cals : List String) (l : List MeetingEvent),
      goCalendars cache call s u cals = .ok l →
      ∀ m ∈ l, ∃ c ∈ cals, ∃ ev, processEvent s c u ev = some m := by
  intro cals
  induction cals with
  | nil =>
    intro l h m hm
    rw [goCalendars] at h
    cases h
    simp at hm
  | cons c rest ih =>
    intro l h m hm
    rw [goCalendars] at h
    cases hf : fetchCalendar cache call c with
    | error e =>
      rw [hf] at h
      simp [Bind.bind, Except.bind] at h
    | ok items =>
      rw [hf] at h
      cases hr : goCalendars cache call s u rest with
      | error e =>
        rw [hr] at h
        simp [Bind.bind, Except.bind] at h
      | ok more =>
        rw [hr] at h
        simp only [Bind.bind, Except.bind, pure, Except.pure, Except.ok.injEq] at h
        rw [← h] at hm
        rcases List.mem_append.mp hm with hm1 | hm2
        · obtain ⟨ev, _, hpe⟩ := List.mem_filterMap.mp hm1
          exact ⟨c, by simp, ev, hpe⟩
        · obtain ⟨c', hc', ev, hpe⟩ := ih more hr m hm2
          exact ⟨c', by simp [hc'], ev, hpe⟩

theorem mem_get_daily_events {cache : String → Option (List RawEvent)}
    {call : String → Nat → Except String (List RawEvent)} {s : Settings}
    {u : RawEvent → Option String} {m : MeetingEvent}
    (hm : m ∈ get_daily_events cache call s u) :
    ∃ c ∈ calendarIdsOf s, ∃ ev, processEvent s c u ev = some m := by
  rw [get_daily_events] at hm
  split at hm
  · exact mem_goCalendars_ok _ _ (by assumption) m hm
  · simp at hm

/-! ## C3 — the external-only filter -/

theorem claimedExternalList_eq (dom : String) (internal : List String)
    (no : List AttendeeInfo) :
    claimedExternalList dom internal no =
      internalStep internal (no.filter (fun a => extract_domain a.email ≠ dom)) := by
  by_cases h1 : internal = []
  · simp [claimedExternalList, internalStep, h1]
  · by_cases h2 : (no.filter (fun a => extract_domain a.email ≠ dom)).filter
        (fun a => extract_domain a.email ∉ internal) = []
    · simp [claimedExternalList, internalStep, h1, h2, List.isEmpty_iff]
    · simp [claimedExternalList, internalStep, h1, h2, List.isEmpty_iff]

/-- C3: with the external-only filter enabled and an owner identity carrying
a domain, for every non-recurring-excluded raw event the processed output's
attendee list equals the spec-described `claimedExternalList` (non-owner
attendees of a different domain, restricted away from configured internal
domains unless that leaves nobody), and the event is dropped iff that list is
empty. -/
theorem processEvent_external_only_refines (s : Settings) (cal : String)
    (u : RawEvent → Option String) (ev : RawEvent)
    (hx : s.filter_external_only = true)
    (hd : ownerDomainOf (lowerStr cal) ≠ "")
    (hr : ¬(s.filter_exclude_recurring ∧ (ev.recurringEventId.isSome ∨ ev.recurrence))) :
    (processEvent s cal u ev = none ↔
      claimedExternalList (ownerDomainOf (lowerStr cal)) (internalDomainsSet s)
        (nonOwnerOf (lowerStr cal) (attendeeInfosOf ev)) = []) ∧
    (∀ m, processEvent s cal u ev = some m →
      m.attendees = claimedExternalList (ownerDomainOf (lowerStr cal))
        (internalDomainsSet s) (nonOwnerOf (lowerStr cal) (attendeeInfosOf ev))) := by
  have hstep : internalStep (internalDomainsSet s)
      (externalStep s.filter_external_only (ownerDomainOf (lowerStr cal))
        (nonOwnerOf (lowerStr cal) (attendeeInfosOf ev))) =
      claimedExternalList (ownerDomainOf (lowerStr cal)) (internalDomainsSet s)
        (nonOwnerOf (lowerStr cal) (attendeeInfosOf ev)) := by
    rw [claimedExternalList_eq]
    congr 1
    simp only [externalStep, if_pos (show ownerDomainOf (lowerStr cal) ≠ "" ∧
      s.filter_external_only = true from ⟨hd, hx⟩)]
  constructor
  · constructor
    · intro hnone
      simp only [processEvent] at hnone
      split_ifs at hnone with h1 h2
      · have hno : nonOwnerOf (lowerStr cal) (attendeeInfosOf ev) = [] := by
          simpa [List.isEmpty_iff] using h1.2
        rw [claimedExternalList_eq, hno]
        simp [internalStep]
      · rw [← hstep]
        simpa [List.isEmpty_iff] using h2.2
    · intro hL
      simp only [processEvent]
      split_ifs with h1 h2
      · rfl
      · rfl
      · exfalso
        refine h2 ⟨hx, ?_⟩
        rw [hstep, hL]
        rfl
  · intro m hm
    rw [(processEvent_some_cases hm).1, hstep]

/-- C3 witness: the spec's own example — owner `alice@acme.com`, attendees
`[bob@acme.com, carol@other.com]` — yields exactly `[carol@other.com]`. -/
theorem processEvent_external_only_refines_witness :
    processedAcmeEvent.attendees =
      claimedExternalList (ownerDomainOf (lowerStr "alice@acme.com"))
        (internalDomainsSet c3Settings)
        (nonOwnerOf (lowerStr "alice@acme.com") (attendeeInfosOf c3Event)) ∧
    processedAcmeEvent.attendees.map (fun a => a.email) = ["carol@other.com"] :=
  ⟨(processEvent_external_only_refines c3Settings "alice@acme.com" (fun _ => none)
      c3Event rfl (by decide) (by decide)).2 processedAcmeEvent (by decide),
   by decide⟩

/-! ## C4 — attendee-presence filtering (corrected) -/

/-- C4 counterexample: with both the non-owner-attendee and the external-only
toggles disabled, an event with zero attendees survives `get_daily_events`
(it is returned with an empty attendee list), so zero-attendee events are not
dropped unconditionally. -/
theorem zero_attendee_event_kept_when_toggles_off :
    (get_daily_events (fun _ => none) (fun _ _ => .ok [c4Event]) c4Settings
      (fun _ => none)).map (fun m => m.attendees) = [[]] := by
  decide

/-- C4 amended: an event with zero attendees is absent from the
`get_daily_events` output whenever the non-owner-attendee toggle or the
external-only toggle is enabled (every returned event then has a non-empty
attendee list); with both toggles disabled such an event is kept. -/
theorem get_daily_events_attendee_presence (cache : String → Option (List RawEvent))
    (call : String → Nat → Except String (List RawEvent)) (s : Settings)
    (u : RawEvent → Option String)
    (htog : s.filter_require_non_owner_attendee = true ∨ s.filter_external_only = true) :
    ∀ m ∈ get_daily_events cache call s u, m.attendees ≠ [] := by
  intro m hm
  obtain ⟨c, _, ev, hpe⟩ := mem_get_daily_events hm
  obtain ⟨hatt, hgate1, hgate2⟩ := processEvent_some_cases hpe
  by_cases hx : s.filter_external_only = true
  · exact hgate2 hx
  · have h1 : s.filter_require_non_owner_attendee = true := by
      rcases htog with h | h
      · exact h
      · exact absurd h hx
    have hxf : s.filter_external_only = false := by
      cases hb : s.filter_external_only
      · rfl
      · exact absurd hb hx
    rw [hatt, hxf, externalStep_of_not_ext]
    exact internalStep_ne_nil (hgate1 h1)

/-- C4 witness: under the default toggles, the processed acme event is in the
output and its attendee list is non-empty. -/
theorem get_daily_events_attendee_presence_witness :
    processedAcmeEvent.attendees ≠ [] :=
  get_daily_events_attendee_presence (fun _ => none)
    (fun _ _ => .ok [c3Event]) acmeSettings (fun _ => none) (Or.inl rfl)
    processedAcmeEvent (by decide)

/-! ## C9 — owner exclusion invariant -/

/-- C9: the output attendee list of a processed event never contains the
queried calendar identity, case-insensitively, whatever the filter toggles
are — the output is always derived from the non-owner subset; and every
event returned by `get_daily_events` is such a processed event of one of the
queried calendars. -/
theorem get_daily_events_owner_excluded :
    (∀ (s : Settings) (cal : String) (u : RawEvent → Option String)
      (ev : RawEvent) (m : MeetingEvent) (a : AttendeeInfo),
      processEvent s cal u ev = some m → a ∈ m.attendees →
      lowerStr a.email ≠ lowerStr cal) ∧
    (∀ (cache : String → Option (List RawEvent))
      (call : String → Nat → Except String (List RawEvent)) (s : Settings)
      (u : RawEvent → Option String) (m : MeetingEvent),
      m ∈ get_daily_events cache call s u →
      ∃ c ∈ calendarIdsOf s, ∃ ev, processEvent s c u ev = some m) := by
  constructor
  · intro s cal u ev m a hm ha
    rw [(processEvent_some_cases hm).1] at ha
    exact mem_nonOwnerOf (externalStep_subset (internalStep_subset ha))
  · intro cache call s u m hm
    exact mem_get_daily_events hm

/-- C9 witness: Carol's email differs (case-insensitively) from the queried
calendar identity `alice@acme.com`. -/
theorem get_daily_events_owner_excluded_witness :
    lowerStr carolInfo.email ≠ lowerStr "alice@acme.com" :=
  get_daily_events_owner_excluded.1 c3Settings "alice@acme.com" (fun _ => none)
    c3Event processedAcmeEvent carolInfo (by decide) (by decide)

/-! ## C7 — history annotation: idempotence and per-email consistency -/

theorem applyHistory_email (c : List (String × Nat)) (l : List (String × Int))
    (a : AttendeeInfo) : (applyHistory c l a).email = a.email := by
  simp only [applyHistory]
  split_ifs <;> rfl

theorem applyHistory_idem (c : List (String × Nat)) (l : List (String × Int))
    (a : AttendeeInfo) : applyHistory c l (applyHistory c l a) = applyHistory c l a := by
  by_cases hk : lowerStr a.email = ""
  · simp [applyHistory, hk]
  · rw [applyHistory, applyHistory_email, if_neg hk]
    rw [applyHistory, if_neg hk]
    cases hl : l.lookup (lowerStr a.email) <;> cases hc : c.lookup (lowerStr a.email) <;>
      simp [hl, hc]

theorem attendeeKeys_map_applyHistory (c : List (String × Nat))
    (l : List (String × Int)) (ev : MeetingEvent) :
    attendeeKeys { ev with attendees := ev.attendees.map (applyHistory c l) } =
      attendeeKeys ev := by
  simp only [attendeeKeys, List.filterMap_map]
  congr 1
  funext a
  simp [Function.comp, applyHistory_email]

theorem uniqueEmails_map_applyHistory (c : List (String × Nat))
    (l : List (String × Int)) (events : List MeetingEvent) :
    uniqueEmails (events.map (fun ev =>
      { ev with attendees := ev.attendees.map (applyHistory c l) })) =
      uniqueEmails events := by
  induction events with
  | nil => rfl
  | cons e t ih =>
    simp only [List.map_cons, uniqueEmails, List.flatMap_cons] at ih ⊢
    rw [attendeeKeys_map_applyHistory, ih]

theorem lowerStr_eq_empty {s : String} : lowerStr s = "" ↔ s = "" := by
  cases s with
  | mk data => simp [lowerStr, String.ext_iff]

theorem mem_uniqueEmails {events : List MeetingEvent} {ev : MeetingEvent}
    {a : AttendeeInfo} (hev : ev ∈ events) (ha : a ∈ ev.attendees)
    (hne : a.email ≠ "") : lowerStr a.email ∈ uniqueEmails events := by
  simp only [uniqueEmails, List.mem_flatMap]
  refine ⟨ev, hev, ?_⟩
  simp only [attendeeKeys, List.mem_filterMap]
  exact ⟨a, ha, by rw [if_pos hne]⟩

/-- Idempotence of the history annotation, the first half of C7. -/
theorem enrich_with_history_idem (past events : List MeetingEvent) :
    enrich_with_history past (enrich_with_history past events) =
      enrich_with_history past events := by
  by_cases h0 : events.isEmpty
  · have h : enrich_with_history past events = events := by
      rw [enrich_with_history, if_pos h0]
    rw [h]
    exact h
  · by_cases h1 : (uniqueEmails events).isEmpty
    · have h : enrich_with_history past events = events := by
        simp [enrich_with_history, h0, h1]
      rw [h]
      exact h
    · generalize hg : applyHistory (historyStats (uniqueEmails events) past).1
        (historyStats (uniqueEmails events) past).2 = g
      have hout : enrich_with_history past events =
          events.map (fun ev => { ev with attendees := ev.attendees.map g }) := by
        rw [← hg]
        simp [enrich_with_history, h0, h1]
      rw [hout]
      have h0' : ¬(events.map
          (fun ev => { ev with attendees := ev.attendees.map g })).isEmpty := by
        simpa [List.isEmpty_iff] using h0
      have h1' : uniqueEmails (events.map
          (fun ev => { ev with attendees := ev.attendees.map g })) =
          uniqueEmails events := by
        rw [← hg]
        exact uniqueEmails_map_applyHistory _ _ events
      rw [enrich_with_history, if_neg h0']
      simp only [h1', if_neg h1, hg]
      rw [List.map_map]
      have hmm : ∀ (xs : List AttendeeInfo), (xs.map g).map g = xs.map g := by
        intro xs
        induction xs with
        | nil => rfl
        | cons x t ih =>
          rw [← hg] at ih ⊢
          simp [ih, applyHistory_idem]
      apply List.map_congr_left
      intro ev _
      simp only [Function.comp]
      have := hmm ev.attendees
      simp only [this]

theorem lookup_bumpCount_self (l : List (String × Nat)) (k : String) :
    ((bumpCount l k).lookup k).isSome := by
  induction l with
  | nil => simp [bumpCount, List.lookup]
  | cons p t ih =>
    obtain ⟨a, n⟩ := p
    rw [bumpCount]
    by_cases h : a = k
    · subst h
      simp [List.lookup]
    · have hba : (k == a) = false := beq_eq_false_iff_ne.mpr (fun hh => h hh.symm)
      rw [if_neg h]
      simpa [List.lookup, hba] using ih

theorem lookup_bumpCount_mono (l : List (String × Nat)) (k k' : String)
    (h : (l.lookup k').isSome) : ((bumpCount l k).lookup k').isSome := by
  induction l with
  | nil => simp [List.lookup] at h
  | cons p t ih =>
    obtain ⟨a, n⟩ := p
    rw [bumpCount]
    by_cases hak : a = k
    · subst hak
      rw [if_pos rfl]
      by_cases hk' : k' = a
      · have hba : (k' == a) = true := beq_iff_eq.mpr hk'
        simp [List.lookup, hba]
      · have hba : (k' == a) = false := beq_eq_false_iff_ne.mpr hk'
        simp only [List.lookup, hba] at h ⊢
        exact h
    · rw [if_neg hak]
      by_cases hk' : k' = a
      · have hba : (k' == a) = true := beq_iff_eq.mpr hk'
        simp [List.lookup, hba]
      · have hba : (k' == a) = false := beq_eq_false_iff_ne.mpr hk'
        simp only [List.lookup, hba] at h ⊢
        exact ih h

theorem lookup_bumpLast_self (l : List (String × Int)) (k : String) (v : Int) :
    ((bumpLast l k v).lookup k).isSome := by
  induction l with
  | nil => simp [bumpLast, List.lookup]
  | cons p t ih =>
    obtain ⟨a, d⟩ := p
    rw [bumpLast]
    by_cases h : a = k
    · subst h
      simp [List.lookup]
    · have hba : (k == a) = false := beq_eq_false_iff_ne.mpr (fun hh => h hh.symm)
      rw [if_neg h]
      simpa [List.lookup, hba] using ih

theorem lookup_bumpLast_mono (l : List (String × Int)) (k k' : String) (v : Int)
    (h : (l.lookup k').isSome) : ((bumpLast l k v).lookup k').isSome := by
  induction l with
  | nil => simp [List.lookup] at h
  | cons p t ih =>
    obtain ⟨a, d⟩ := p
    rw [bumpLast]
    by_cases hak : a = k
    · subst hak
      rw [if_pos rfl]
      by_cases hk' : k' = a
      · have hba : (k' == a) = true := beq_iff_eq.mpr hk'
        simp [List.lookup, hba]
      · have hba : (k' == a) = false := beq_eq_false_iff_ne.mpr hk'
        simp only [List.lookup, hba] at h ⊢
        exact h
    · rw [if_neg hak]
      by_cases hk' : k' = a
      · have hba : (k' == a) = true := beq_iff_eq.mpr hk'
        simp [List.lookup, hba]
      · have hba : (k' == a) = false := beq_eq_false_iff_ne.mpr hk'
        simp only [List.lookup, hba] at h ⊢
        exact ih h

theorem statsFold_isSome_mono (unique : List String) (st : Int) :
    ∀ (l : List AttendeeInfo) (acc : List (String × Nat) × List (String × Int))
      (k : String),
      (acc.1.lookup k).isSome ∧ (acc.2.lookup k).isSome →
      ((statsFold unique st acc l).1.lookup k).isSome ∧
        ((statsFold unique st acc l).2.lookup k).isSome := by
  intro l
  induction l with
  | nil => intro acc k h; exact h
  | cons p t ih =>
    intro acc k h
    rw [statsFold, List.foldl_cons]
    by_cases hc : lowerStr p.email = "" ∨ lowerStr p.email ∉ unique
    · rw [if_pos hc]
      exact ih acc k h
    · rw [if_neg hc]
      exact ih _ k ⟨lookup_bumpCount_mono _ _ _ h.1, lookup_bumpLast_mono _ _ _ _ h.2⟩

theorem statsFold_isSome_create (unique : List String) (st : Int) :
    ∀ (l : List AttendeeInfo) (acc : List (String × Nat) × List (String × Int))
      (k : String), k ∈ unique →
      (∃ p ∈ l, lowerStr p.email = k ∧ p.email ≠ "") →
      ((statsFold unique st acc l).1.lookup k).isSome ∧
        ((statsFold unique st acc l).2.lookup k).isSome := by
  intro l
  induction l with
  | nil =>
    intro acc k _ hocc
    simp at hocc
  | cons p t ih =>
    intro acc k hk hocc
    rw [statsFold, List.foldl_cons]
    rcases hocc with ⟨q, hq, hqk, hqne⟩
    rcases List.mem_cons.mp hq with rfl | hqt
    · have hcond : ¬(lowerStr q.email = "" ∨ lowerStr q.email ∉ unique) := by
        push_neg
        refine ⟨?_, by rw [hqk]; exact hk⟩
        simpa [lowerStr_eq_empty] using hqne
      rw [if_neg hcond]
      refine statsFold_isSome_mono unique st t _ k ?_
      rw [hqk]
      exact ⟨lookup_bumpCount_self _ _, lookup_bumpLast_self _ _ _⟩
    · by_cases hc : lowerStr p.email = "" ∨ lowerStr p.email ∉ unique
      · rw [if_pos hc]
        exact ih acc k hk ⟨q, hqt, hqk, hqne⟩
      · rw [if_neg hc]
        exact ih _ k hk ⟨q, hqt, hqk, hqne⟩

theorem historyStats_isSome_aux (unique : List String) (k : String)
    (hk : k ∈ unique) :
    ∀ (past : List MeetingEvent) (acc : List (String × Nat) × List (String × Int)),
      ((acc.1.lookup k).isSome ∧ (acc.2.lookup k).isSome) ∨
        (∃ pev ∈ past, ∃ p ∈ pev.attendees, lowerStr p.email = k ∧ p.email ≠ "") →
      ((past.foldl (statsOfEvent unique) acc).1.lookup k).isSome ∧
        ((past.foldl (statsOfEvent unique) acc).2.lookup k).isSome := by
  intro past
  induction past with
  | nil =>
    intro acc h
    rcases h with h | h
    · exact h
    · simp at h
  | cons pev t ih =>
    intro acc h
    rw [List.foldl_cons]
    rcases h with h | ⟨pev', hpev', p, hp, hpk, hpne⟩
    · exact ih _ (Or.inl (statsFold_isSome_mono unique pev.start_time pev.attendees acc k h))
    · rcases List.mem_cons.mp hpev' with rfl | hmem
      · exact ih _ (Or.inl (statsFold_isSome_create unique pev'.start_time
          pev'.attendees acc k hk ⟨p, hp, hpk, hpne⟩))
      · exact ih _ (Or.inr ⟨pev', hmem, p, hp, hpk, hpne⟩)

theorem historyStats_isSome (unique : List String) (past : List MeetingEvent)
    (k : String) (hk : k ∈ unique)
    (hocc : ∃ pev ∈ past, ∃ p ∈ pev.attendees, lowerStr p.email = k ∧ p.email ≠ "") :
    ((historyStats unique past).1.lookup k).isSome ∧
      ((historyStats unique past).2.lookup k).isSome :=
  historyStats_isSome_aux unique k hk past ([], []) (Or.inr hocc)

theorem applyHistory_fields_of_isSome (c : List (String × Nat))
    (l : List (String × Int)) (a : AttendeeInfo) (hne : a.email ≠ "") :
    (applyHistory c l a).meetings_past_n_days =
      ((c.lookup (lowerStr a.email)).or a.meetings_past_n_days) ∧
    (applyHistory c l a).last_meeting_date =
      ((l.lookup (lowerStr a.email)).or a.last_meeting_date) := by
  have hk : lowerStr a.email ≠ "" := by simpa [lowerStr_eq_empty] using hne
  rw [applyHistory, if_neg hk]
  constructor
  · cases c.lookup (lowerStr a.email) <;> simp
  · cases l.lookup (lowerStr a.email) <;> simp

/-- C7: history annotation is idempotent — running `_enrich_with_history`
twice against the same fixed history leaves every attendee's
`meetings_past_n_days` and `last_meeting_date` exactly as after one run (no
double counting) — and any two attendee objects in the output sharing the
same lowercased (non-empty) email that actually occurs in the lookback
history receive identical annotation values. -/
theorem enrich_with_history_idempotent_consistent (past events : List MeetingEvent) :
    enrich_with_history past (enrich_with_history past events) =
      enrich_with_history past events ∧
    ∀ ev ∈ enrich_with_history past events,
      ∀ ev' ∈ enrich_with_history past events,
        ∀ a ∈ ev.attendees, ∀ a' ∈ ev'.attendees,
          lowerStr a.email = lowerStr a'.email → a.email ≠ "" →
          (∃ pev ∈ past, ∃ p ∈ pev.attendees,
            lowerStr p.email = lowerStr a.email ∧ p.email ≠ "") →
          a.meetings_past_n_days = a'.meetings_past_n_days ∧
            a.last_meeting_date = a'.last_meeting_date := by
  refine ⟨enrich_with_history_idem past events, ?_⟩
  intro ev hev ev' hev' a ha a' ha' hkey hne hocc
  by_cases h0 : events.isEmpty
  · rw [enrich_with_history, if_pos h0] at hev
    rw [List.isEmpty_iff.mp h0] at hev
    simp at hev
  · by_cases h1 : (uniqueEmails events).isEmpty
    · have heq : enrich_with_history past events = events := by
        simp [enrich_with_history, h0, h1]
      rw [heq] at hev
      have hmem := mem_uniqueEmails hev ha hne
      rw [List.isEmpty_iff.mp h1] at hmem
      simp at hmem
    · simp only [enrich_with_history] at hev hev'
      rw [if_neg h0, if_neg h1] at hev hev'
      rcases List.mem_map.mp hev with ⟨ev0, hev0, heq0⟩
      rcases List.mem_map.mp hev' with ⟨ev0', hev0', heq0'⟩
      rw [← heq0] at ha
      rw [← heq0'] at ha'
      rcases List.mem_map.mp ha with ⟨a0, ha0, haeq⟩
      rcases List.mem_map.mp ha' with ⟨a0', ha0', haeq'⟩
      have hea : a.email = a0.email := by rw [← haeq, applyHistory_email]
      have hea' : a'.email = a0'.email := by rw [← haeq', applyHistory_email]
      have hne0 : a0.email ≠ "" := by rw [← hea]; exact hne
      have hne0' : a0'.email ≠ "" := by
        rw [← hea']
        intro hc
        rw [hc] at hkey
        simp only [lowerStr_eq_empty.mpr rfl] at hkey
        exact hne (lowerStr_eq_empty.mp hkey)
      have hkk : lowerStr a0.email = lowerStr a0'.email := by
        rw [← hea, ← hea']
        exact hkey
      have hkmem : lowerStr a0.email ∈ uniqueEmails events :=
        mem_uniqueEmails hev0 ha0 hne0
      have hocc0 : ∃ pev ∈ past, ∃ p ∈ pev.attendees,
          lowerStr p.email = lowerStr a0.email ∧ p.email ≠ "" := by
        rw [hea] at hocc
        exact hocc
      obtain ⟨hcs, hls⟩ := historyStats_isSome (uniqueEmails events) past
        (lowerStr a0.email) hkmem hocc0
      obtain ⟨n, hn⟩ := Option.isSome_iff_exists.mp hcs
      obtain ⟨d, hd⟩ := Option.isSome_iff_exists.mp hls
      have hf := applyHistory_fields_of_isSome
        (historyStats (uniqueEmails events) past).1
        (historyStats (uniqueEmails events) past).2 a0 hne0
      have hf' := applyHistory_fields_of_isSome
        (historyStats (uniqueEmails events) past).1
        (historyStats (uniqueEmails events) past).2 a0' hne0'
      rw [← haeq, ← haeq']
      rw [hf.1, hf.2, hf'.1, hf'.2, ← hkk, hn, hd]
      simp [Option.or]

/-- C7 witness: the same person appearing (with case-varied email) in two of
today's meetings, with two past meetings on record, gets identical
annotations on both attendee objects. -/
theorem enrich_with_history_idempotent_consistent_witness :
    c7AttFirst.meetings_past_n_days = c7AttSecond.meetings_past_n_days ∧
      c7AttFirst.last_meeting_date = c7AttSecond.last_meeting_date :=
  (enrich_with_history_idempotent_consistent c7Past c7Events).2
    c7OutFirst (by decide) c7OutSecond (by decide)
    c7AttFirst (by decide) c7AttSecond (by decide)
    (by decide) (by decide)
    ⟨c7PastA, by decide, { email := "p@ext.com", name := "P" }, by decide, by decide, by decide⟩

/-! ## C5 — the fallback "About" snippet (corrected) -/

/-- C5 counterexample: with no materials and a present CRM note, a non-empty
event description wins — the snippet is built from the description, not from
the attendee's CRM note, so the claimed priority (materials → CRM
note/recent-context → website) misses the description step. -/
theorem format_about_prefers_description :
    format_about (some "Quarterly sync") [c5Attendee] = " — About: Quarterly sync" ∧
      c5Attendee.materials = none ∧
      c5Attendee.last_note_summary = some "Call recap" ∧
      format_about (some "Quarterly sync") [c5Attendee] ≠ " — About: Call recap" := by
  refine ⟨by decide, rfl, rfl, by decide⟩

/-- C5 amended: the fallback formatter's "About" snippet is chosen by the
priority materials links → HTML-stripped event description → first non-empty
attendee CRM-note/recent-context text → first company website URL, and the
chosen text (not the materials line) is truncated to 120 characters plus an
ellipsis when longer. -/
theorem format_about_priority (descr : Option String) (attendees : List AttendeeInfo) :
    (gatherMaterials attendees ≠ [] →
      format_about descr attendees =
        " — About: Materials: " ++
          String.intercalate " • " ((gatherMaterials attendees).take 2)) ∧
    (gatherMaterials attendees = [] → strip_html (descr.getD "") ≠ "" →
      format_about descr attendees =
        " — About: " ++ truncate120 (strip_html (descr.getD ""))) ∧
    (gatherMaterials attendees = [] → strip_html (descr.getD "") = "" →
      firstNoteText attendees ≠ "" →
      format_about descr attendees =
        " — About: " ++ truncate120 (firstNoteText attendees)) ∧
    (gatherMaterials attendees = [] → strip_html (descr.getD "") = "" →
      firstNoteText attendees = "" → websiteText attendees ≠ "" →
      format_about descr attendees =
        " — About: " ++ truncate120 (websiteText attendees)) ∧
    (gatherMaterials attendees = [] → strip_html (descr.getD "") = "" →
      firstNoteText attendees = "" → websiteText attendees = "" →
      format_about descr attendees = "") ∧
    (∀ s : String, s.data.length > 120 →
      truncate120 s = (⟨s.data.take 120⟩ : String) ++ "…") := by
  refine ⟨?_, ?_, ?_, ?_, ?_, ?_⟩
  · intro hmat
    simp [format_about, hmat]
  · intro hmat hdesc
    simp [format_about, hmat, hdesc]
  · intro hmat hdesc hnote
    simp [format_about, hmat, hdesc, hnote]
  · intro hmat hdesc hnote hweb
    simp [format_about, hmat, hdesc, hnote, hweb]
  · intro hmat hdesc hnote hweb
    simp [format_about, hmat, hdesc, hnote, hweb]
  · intro s hs
    rw [truncate120, if_pos hs]

set_option maxRecDepth 8192 in
/-- C5 witness: a 130-character CRM note (no materials, no description) is
chosen and truncated to 120 characters plus the ellipsis. -/
theorem format_about_priority_witness :
    format_about none [c5NoteAttendee] =
      " — About: " ++ truncate120 (firstNoteText [c5NoteAttendee]) ∧
      truncate120 c5LongNote =
        (⟨c5LongNote.data.take 120⟩ : String) ++ "…" :=
  ⟨(format_about_priority none [c5NoteAttendee]).2.2.1 (by decide) (by decide)
      (by decide),
   (format_about_priority none []).2.2.2.2.2 c5LongNote (by decide)⟩

end CalendarNotifier
